import Mathlib

/-
Formal model of the adaptive reading-comprehension trainer (`app.py`).

Conventions of the shallow embedding:
* Python integers are modelled as `ℤ` (levels) or `ℕ` (scores, counts).
* The Python float expression `(score / num_questions) * 100` is modelled with
  exact rational arithmetic (`ℚ`).  For every reachable input
  (`score ∈ {0,…,5}`, `num_questions = 5`) the IEEE-754 double computation in
  Python yields exactly 0.0, 20.0, 40.0, 60.0, 80.0 or 100.0 (each product
  rounds to the exact decimal), so the rational model coincides with the
  float behaviour on all inputs the program can produce.
* Fallible operations return `Option`; a Python function that swallows every
  exception and returns `None` is modelled as a total function returning
  `none`.
* Parsed JSON values (`json.loads` output) are modelled by the inductive
  `Json`; Python dicts become association lists with distinct keys (the
  parser deduplicates keys), looked up by first match.
-/

namespace Compren

/-! # Definitions -/

/-! ## Level constants (app.py lines 12-14) -/

def MIN_LEVEL : ℤ := 1
def MAX_LEVEL : ℤ := 10
def DEFAULT_LEVEL : ℤ := 3

/-! ## Level adaptation (app.py lines 731-755)

The feedback block computes `score_percentage = (score / num_questions) * 100`
and then: at `>= 80` it increments the level when strictly below `MAX_LEVEL`;
at `<= 40` it decrements when strictly above `MIN_LEVEL`; otherwise it keeps
the level. -/

def score_percentage (score numQ : ℕ) : ℚ :=
  ((score : ℚ) / (numQ : ℚ)) * 100

def adaptLevel (lvl : ℤ) (score numQ : ℕ) : ℤ :=
  if 80 ≤ score_percentage score numQ then
    if lvl < MAX_LEVEL then lvl + 1 else lvl
  else if score_percentage score numQ ≤ 40 then
    if MIN_LEVEL < lvl then lvl - 1 else lvl
  else lvl

/-! ## JSON values

Model of Python values produced by `json.loads`: dicts become association
lists (the parser keeps keys distinct; lookup is by first match). -/

inductive Json : Type where
  | null : Json
  | bool : Bool → Json
  | num : Int → Json
  | str : String → Json
  | arr : List Json → Json
  | obj : List (String × Json) → Json

/-- Dictionary lookup, `d[k]` / `k in d` on a parsed Python dict. -/
def jLookup : List (String × Json) → String → Option Json
  | [], _ => none
  | (k', v) :: rest, k => if k' = k then some v else jLookup rest k

/-- Extracts a value only when it is a string (`isinstance(x, str)`). -/
def asStr : Option Json → Option String
  | some (Json.str s) => some s
  | _ => none

/-- Extracts a value only when it is a dict (`isinstance(x, dict)`). -/
def asObj : Option Json → Option (List (String × Json))
  | some (Json.obj kvs) => some kvs
  | _ => none

/-! ## Question-set validation (app.py lines 286-324)

The code validates the parsed JSON: a list of exactly 5 elements, each a dict
with keys `question` (non-empty string), `options` (a dict with exactly the
four keys A/B/C/D, all values non-empty strings) and `correct_answer` (one of
A/B/C/D that is also a key of `options`). -/

/-- Check on an option value: a non-empty string (app.py lines 307-310). -/
def goodOptVal (v : Json) : Bool :=
  match v with
  | Json.str s => !(s == "")
  | _ => false

/-- Checks on the three extracted fields of one question element
(app.py lines 295-314); `none` stands for a missing field or a field of the
wrong Python type, which the code rejects. -/
def checkElem : Option String → Option (List (String × Json)) → Option String → Bool
  | some qt, some opts, some c =>
      (!(qt == "")) &&
      (c == "A" || c == "B" || c == "C" || c == "D") &&
      (opts.length == 4) &&
      ((jLookup opts "A").isSome && (jLookup opts "B").isSome &&
       (jLookup opts "C").isSome && (jLookup opts "D").isSome) &&
      (opts.all fun p => goodOptVal p.2) &&
      (jLookup opts c).isSome
  | _, _, _ => false

def isGoodElem (q : Json) : Bool :=
  match q with
  | Json.obj kvs =>
      checkElem (asStr (jLookup kvs "question")) (asObj (jLookup kvs "options"))
        (asStr (jLookup kvs "correct_answer"))
  | _ => false

/-- Validation of the whole parsed value: a list of exactly 5 valid elements
is returned as-is, anything else fails (app.py lines 288-324). -/
def validateQuestionSet (j : Json) : Option (List Json) :=
  match j with
  | Json.arr qs => if (qs.length == 5) && qs.all isGoodElem then some qs else none
  | _ => none

/-- Per-attempt outcome of a question-generation call: a raised transport
error, an output that is not valid JSON, or a parsed JSON value. -/
inductive McOutcome : Type where
  | raise : McOutcome
  | noparse : String → McOutcome
  | parsed : Json → McOutcome

/-- One attempt of `generate_mc_questions`: transport errors and parse
failures fail the attempt, a parsed value goes through validation. -/
def mcAttempt (o : McOutcome) : Option (List Json) :=
  match o with
  | McOutcome.raise => none
  | McOutcome.noparse _ => none
  | McOutcome.parsed j => validateQuestionSet j

/-- Statement of the spec's per-question contract, written from the claim:
a dict with the three required fields, `question` a non-empty string,
`options` a dict with exactly the four keys A/B/C/D all mapped to non-empty
strings, and `correct_answer` one of A/B/C/D that is also an `options` key. -/
def SpecGoodElem (q : Json) : Prop :=
  ∃ kvs qt opts c,
    q = Json.obj kvs ∧
    jLookup kvs "question" = some (Json.str qt) ∧ qt ≠ "" ∧
    jLookup kvs "options" = some (Json.obj opts) ∧
    (opts.map Prod.fst).Perm ["A", "B", "C", "D"] ∧
    (∀ p ∈ opts, ∃ v, p.2 = Json.str v ∧ v ≠ "") ∧
    jLookup kvs "correct_answer" = some (Json.str c) ∧
    (c = "A" ∨ c = "B" ∨ c = "C" ∨ c = "D") ∧
    c ∈ opts.map Prod.fst

/-! ## Passage validation (app.py lines 166-197)

`generate_reading_text` accepts an attempt when the response has parts and
the stripped text has length > 40 characters and contains neither of the
refusal phrases (lower-cased containment check).  There is no word-count
check anywhere in the code; the word-count configuration below is the
`words` range the prompt asks for (app.py lines 133-152), used only to state
the spec's claimed threshold. -/

/-- Tests whether the needle (first list) occurs at the head of the haystack. -/
def matchesAt : List Char → List Char → Bool
  | [], _ => true
  | _ :: _, [] => false
  | c :: cs, h :: hs => c == h && matchesAt cs hs

/-- Python substring containment `needle in hay` over character lists. -/
def hasSub : List Char → List Char → Bool
  | [], needle => needle.isEmpty
  | hay@(_ :: t), needle => matchesAt needle hay || hasSub t needle

/-- Python `str.lower()` restricted to the characters in play. -/
def toLowerL (l : List Char) : List Char := l.map Char.toLower

/-- Python `str.strip()`: drop leading and trailing whitespace. -/
def stripL (l : List Char) : List Char :=
  ((l.dropWhile Char.isWhitespace).reverse.dropWhile Char.isWhitespace).reverse

def refusal1 : List Char := "no puedo generar".data
def refusal2 : List Char := "contenido inapropiado".data

/-- Acceptance test on a generated passage text (app.py line 172-174):
`len(generated_text) > 40` on the stripped text and neither refusal phrase
occurs in its lower-cased form. -/
def validPassageText (raw : String) : Bool :=
  let g := stripL raw.data
  decide (40 < g.length) && !(hasSub (toLowerL g) refusal1) &&
    !(hasSub (toLowerL g) refusal2)

/-- Per-attempt outcome of a passage-generation call: a raised transport
error, or a response carrying a has-parts flag and the response text. -/
inductive GenOutcome : Type where
  | raise : GenOutcome
  | response : Bool → String → GenOutcome

/-- One attempt of `generate_reading_text`: a transport error or a response
without parts fails the attempt; otherwise the stripped text is returned
when it passes `validPassageText`. -/
def passageAttempt (o : GenOutcome) : Option String :=
  match o with
  | GenOutcome.raise => none
  | GenOutcome.response parts t =>
    if parts then
      if validPassageText t then some (String.mk (stripL t.data)) else none
    else none

/-- Minimum of the word-count range the prompt requests per level
(app.py lines 133-152: ranges 50-80, 80-120, 120-180, 180-250, 250-350). -/
def levelWordsMin (level : ℤ) : ℕ :=
  if level ≤ 2 then 50
  else if level ≤ 4 then 80
  else if level ≤ 6 then 120
  else if level ≤ 8 then 180
  else 250

/-- Python `len(s.split())`: number of maximal non-whitespace runs. -/
def countWords : List Char → Bool → ℕ
  | [], _ => 0
  | c :: rest, inWord =>
    if Char.isWhitespace c then countWords rest false
    else (if inWord then 0 else 1) + countWords rest true

def wordCount (s : String) : ℕ := countWords s.data false

/-- Concrete generated text: 4 words, 43 characters, no refusal phrase. -/
def c3text : String := "abcdefghij klmnopqrst uvwxyzabcd efghijklmn"

/-! ## Retry loop (app.py lines 165-210 and 251-351)

Both generation functions run `for attempt in range(max_retries)` with
`max_retries = 3`, sleep `1.5 ** attempt` seconds after a failed attempt
that is not the last, and return `None` when every attempt fails (validation
failure or raised exception); no exception escapes.  The loop is unrolled
below for the fixed `max_retries = 3`; the result carries the number of
calls made and the list of sleep durations in seconds. -/

def MAX_RETRIES : ℕ := 3

/-- Sleep duration `1.5 ** attempt` seconds, as an exact rational. -/
def backoff (attempt : ℕ) : ℚ := (3 / 2 : ℚ) ^ attempt

def runRetries {ω α : Type} (check : ω → Option α) (oracle : ℕ → ω) :
    Option α × ℕ × List ℚ :=
  match check (oracle 0) with
  | some a => (some a, 1, [])
  | none =>
    match check (oracle 1) with
    | some a => (some a, 2, [backoff 0])
    | none =>
      match check (oracle 2) with
      | some a => (some a, 3, [backoff 0, backoff 1])
      | none => (none, 3, [backoff 0, backoff 1])

def generate_reading_text (oracle : ℕ → GenOutcome) : Option String × ℕ × List ℚ :=
  runRetries passageAttempt oracle

def generate_mc_questions (oracle : ℕ → McOutcome) : Option (List Json) × ℕ × List ℚ :=
  runRetries mcAttempt oracle

/-! ## Grading (app.py lines 683-713)

The results section counts the questions whose stored user answer equals the
question's `correct_answer` letter; a missing (`None`) answer never counts.
User answers are the Python dict `{question_index: letter_or_None}`. -/

/-- Python `user_answers.get(i)`: `None` when the key is missing or the
stored value is itself `None`. -/
def ansGet : List (ℕ × Option String) → ℕ → Option String
  | [], _ => none
  | (i, v) :: rest, j => if i = j then v else ansGet rest j

/-- The `correct_answer` letter of a question element, when it is a string. -/
def correctKey (q : Json) : Option String :=
  match q with
  | Json.obj kvs => asStr (jLookup kvs "correct_answer")
  | _ => none

/-- Python `user_ans_letter == correct_ans_letter` for question `i`
(app.py line 694); a missing answer is never equal to a correct letter. -/
def isCorrect (ua : List (ℕ × Option String)) (i : ℕ) (q : Json) : Bool :=
  match correctKey q with
  | some c => ansGet ua i == some c
  | none => false

def gradeAux (ua : List (ℕ × Option String)) : ℕ → List Json → ℕ
  | _, [] => 0
  | i, q :: rest => (if isCorrect ua i q then 1 else 0) + gradeAux ua (i + 1) rest

/-- The grading loop (app.py lines 689-696): `correct_count` accumulated
over the enumerated question list. -/
def grade (ua : List (ℕ × Option String)) (qs : List Json) : ℕ :=
  gradeAux ua 0 qs

/-! ## Session state and persistent store (app.py lines 375-392, 496-518,
561-784)

`st.session_state` is modelled by `Sess`; the persistent `user_data.json`
content by a `Json` object mapping usernames to records.  Python dict update
`user_data[u]['level'] = lvl` updates the first (unique) occurrence of the
key. -/

structure Sess where
  username : String
  is_admin : Bool
  current_level : ℤ
  current_text : Option String
  current_questions : Option (List Json)
  user_answers : List (ℕ × Option String)
  submitted_answers : Bool
  score : ℕ
  feedback_given : Bool

/-- Lookup of a user record, `user_data[u]` (absent when missing). -/
def getUserRec (store : Json) (u : String) : Option Json :=
  match store with
  | Json.obj kvs => jLookup kvs u
  | _ => none

/-- Python `u in user_data`. -/
def hasUser (store : Json) (u : String) : Bool :=
  (getUserRec store u).isSome

/-- Dict assignment `d[k] = v`: replace the first occurrence or append. -/
def objSet : List (String × Json) → String → Json → List (String × Json)
  | [], k, v => [(k, v)]
  | (k', v') :: rest, k, v =>
    if k' = k then (k, v) :: rest else (k', v') :: objSet rest k v

/-- Field assignment on a record value; non-dict values are left unchanged
(Python would raise there; no reachable store has them). -/
def setField (j : Json) (k : String) (v : Json) : Json :=
  match j with
  | Json.obj kvs => Json.obj (objSet kvs k v)
  | j' => j'

/-- Assignment `user_data[u]['level'] = lvl` on the username association
list (first occurrence). -/
def setLevelList : List (String × Json) → String → ℤ → List (String × Json)
  | [], _, _ => []
  | (k, rec) :: rest, u, lvl =>
    if k = u then (k, setField rec "level" (Json.num lvl)) :: rest
    else (k, rec) :: setLevelList rest u lvl

def setLevel (store : Json) (u : String) (lvl : ℤ) : Json :=
  match store with
  | Json.obj kvs => Json.obj (setLevelList kvs u lvl)
  | j => j

/-- The stored level value of a user record. -/
def getUserLevel (store : Json) (u : String) : Option Json :=
  match getUserRec store u with
  | some (Json.obj rec) => jLookup rec "level"
  | _ => none

/-- Number of entries under the spec's `history` key of a user record; 0
when the key is absent (as it always is: the code never writes one). -/
def recHistoryLen (rec : Json) : ℕ :=
  match rec with
  | Json.obj rkvs =>
    match jLookup rkvs "history" with
    | some (Json.arr l) => l.length
    | _ => 0
  | _ => 0

def historyLen (store : Json) (u : String) : ℕ :=
  match getUserRec store u with
  | some rec => recHistoryLen rec
  | none => 0

/-- The results-and-feedback section (app.py lines 679-772), run on every
render while `submitted_answers` holds: it recomputes the score, and, only
when `feedback_given` is still false, adapts the level, persists the store
when (and only when) the level changed and the user exists in the reloaded
store, and sets `feedback_given`.  Returns the new session state, the new
store content, and the list of store writes performed. -/
def resultsRender (s : Sess) (store : Json) : Sess × Json × List Json :=
  if s.submitted_answers then
    let qs := s.current_questions.getD []
    let sc := grade s.user_answers qs
    let s1 : Sess := { s with score := sc }
    if s1.feedback_given then (s1, store, [])
    else
      let nl := adaptLevel s1.current_level sc qs.length
      let s2 : Sess := { s1 with current_level := nl, feedback_given := true }
      if nl = s1.current_level then (s2, store, [])
      else if hasUser store s.username then
        let st2 := setLevel store s.username nl
        (s2, st2, [st2])
      else (s2, store, [])
  else (s, store, [])

/-- The next-text button handler (app.py lines 776-784): clears text,
questions, answers and the submitted flag; `score` and `feedback_given` are
deliberately left for the generation step to reset. -/
def nextStep (s : Sess) : Sess :=
  { s with current_text := none, current_questions := none,
           user_answers := [], submitted_answers := false }

/-- The answer-form submit handler (app.py lines 665-676): ignored when
already submitted; accepted only when every collected answer is non-null,
in which case the answers dict is stored and the submitted flag set. -/
def submitStep (s : Sess) (temp : List (Option String)) : Sess :=
  if s.submitted_answers then s
  else if temp.all (fun a => a.isSome) then
    { s with user_answers := temp.enum, submitted_answers := true,
             feedback_given := false }
  else s

/-- The logout handler's store write (app.py lines 496-508): for a student
with a non-empty username present in the reloaded store, the current level
is written unconditionally. -/
def logoutSave (s : Sess) (store : Json) : Json × List Json :=
  if s.is_admin = false ∧ s.username ≠ "" then
    if hasUser store s.username then
      (setLevel store s.username s.current_level,
        [setLevel store s.username s.current_level])
    else (store, [])
  else (store, [])

/-- The login-time level load for a student,
`user_info.get('level', DEFAULT_LEVEL)` (app.py line 426). -/
def loginLevel (rec : List (String × Json)) : Json :=
  match jLookup rec "level" with
  | some j => j
  | none => Json.num DEFAULT_LEVEL

/-! ## Concrete data used by counterexamples and witnesses -/

/-- Witness session state for the submit theorem. -/
def c7sess : Sess :=
  { username := "ana@x.com", is_admin := false, current_level := 5,
    current_text := some "texto", current_questions := none,
    user_answers := [], submitted_answers := false, score := 0,
    feedback_given := false }

/-- Concrete graded session state with a non-zero score. -/
def c9sess : Sess :=
  { username := "ana@x.com", is_admin := false, current_level := 5,
    current_text := some "texto", current_questions := some [],
    user_answers := [(0, some "A")], submitted_answers := true, score := 4,
    feedback_given := true }

/-- Concrete validated question whose correct answer is A. -/
def exQuestion : Json :=
  Json.obj [("question", Json.str "tema principal"),
    ("options", Json.obj [("A", Json.str "a"), ("B", Json.str "b"),
      ("C", Json.str "c"), ("D", Json.str "d")]),
    ("correct_answer", Json.str "A")]

/-- Concrete element violating the contract: `correct_answer` is E. -/
def badQuestion : Json :=
  Json.obj [("question", Json.str "tema principal"),
    ("options", Json.obj [("A", Json.str "a"), ("B", Json.str "b"),
      ("C", Json.str "c"), ("D", Json.str "d")]),
    ("correct_answer", Json.str "E")]

/-- Concrete store content: one student record with the three keys the code
writes (password hash, level, admin flag) and no history. -/
def c6store : Json :=
  Json.obj [("ana@x.com", Json.obj
    [("hashed_password_with_salt", Json.str "ab12:cd34"),
     ("level", Json.num 5), ("is_admin", Json.bool false)])]

/-- Concrete answered, not yet graded session state: all five answers A. -/
def c6sess : Sess :=
  { username := "ana@x.com", is_admin := false, current_level := 5,
    current_text := some "texto", current_questions := some (List.replicate 5 exQuestion),
    user_answers := (List.replicate 5 (some "A")).enum, submitted_answers := true,
    score := 0, feedback_given := false }

/-! # Theorems -/

/-! ## Threshold evaluation lemmas -/

theorem percent_hi_iff (score : ℕ) (h : score ≤ 5) :
    (80 ≤ score_percentage score 5) ↔ 4 ≤ score := by
  interval_cases score <;> simp [score_percentage] <;> norm_num

theorem percent_lo_iff (score : ℕ) (h : score ≤ 5) :
    (score_percentage score 5 ≤ 40) ↔ score ≤ 2 := by
  interval_cases score <;> simp [score_percentage] <;> norm_num

/-- C1: for every level in `[MIN_LEVEL, MAX_LEVEL]` and score in `0..5`, the
level-adaptation step returns `min (lvl + 1) MAX_LEVEL` when `score/5 ≥ 0.8`
(score 4 or 5), `max (lvl - 1) MIN_LEVEL` when `score/5 ≤ 0.4` (score 0, 1
or 2), and `lvl` unchanged when the score is 3; being a total function with
guarded updates, it clamps at the bounds and never errors. -/
theorem c1_level_adaptation (lvl : ℤ) (score : ℕ)
    (h1 : MIN_LEVEL ≤ lvl) (h2 : lvl ≤ MAX_LEVEL) (h5 : score ≤ 5) :
    (4 ≤ score → adaptLevel lvl score 5 = min (lvl + 1) MAX_LEVEL) ∧
    (score ≤ 2 → adaptLevel lvl score 5 = max (lvl - 1) MIN_LEVEL) ∧
    (score = 3 → adaptLevel lvl score 5 = lvl) := by
  refine ⟨?_, ?_, ?_⟩ <;> intro hs
  · rw [adaptLevel, if_pos ((percent_hi_iff score h5).mpr hs)]
    rw [MIN_LEVEL] at h1; rw [MAX_LEVEL] at h2 ⊢
    split_ifs <;> omega
  · have hlo : score_percentage score 5 ≤ 40 := (percent_lo_iff score h5).mpr hs
    have hhi : ¬ (80 ≤ score_percentage score 5) := by
      intro hc
      have := (percent_hi_iff score h5).mp hc
      omega
    rw [adaptLevel, if_neg hhi, if_pos hlo]
    rw [MIN_LEVEL] at h1 ⊢; rw [MAX_LEVEL] at h2
    split_ifs <;> omega
  · subst hs
    have hhi : ¬ (80 ≤ score_percentage 3 5) := by
      intro hc
      have := (percent_hi_iff 3 (by norm_num)).mp hc
      omega
    have hlo : ¬ (score_percentage 3 5 ≤ 40) := by
      intro hc
      have := (percent_lo_iff 3 (by norm_num)).mp hc
      omega
    rw [adaptLevel, if_neg hhi, if_neg hlo]

/-- Witness for `c1_level_adaptation` at level 10, score 5: the adapter clamps
at the top bound. -/
theorem c1_level_adaptation_witness :
    adaptLevel 10 5 5 = min (10 + 1) MAX_LEVEL := by
  have h := c1_level_adaptation 10 5 (by norm_num [MIN_LEVEL])
    (by norm_num [MAX_LEVEL]) (by norm_num)
  exact h.1 (by norm_num)

/-! ## JSON lookup lemmas -/

theorem asStr_eq_some {o : Option Json} {s : String} :
    asStr o = some s ↔ o = some (Json.str s) := by
  rcases o with _ | j
  · simp [asStr]
  · cases j <;> simp [asStr]

theorem asObj_eq_some {o : Option Json} {kvs : List (String × Json)} :
    asObj o = some kvs ↔ o = some (Json.obj kvs) := by
  rcases o with _ | j
  · simp [asObj]
  · cases j <;> simp [asObj]

theorem jLookup_isSome_iff (l : List (String × Json)) (k : String) :
    (jLookup l k).isSome = true ↔ k ∈ l.map Prod.fst := by
  induction l with
  | nil => simp [jLookup]
  | cons p rest ih =>
    obtain ⟨k', v⟩ := p
    rw [jLookup]
    by_cases h : k' = k
    · subst h
      simp
    · rw [if_neg h, ih]
      simp only [List.map_cons, List.mem_cons]
      constructor
      · exact Or.inr
      · rintro (h2 | h2)
        · exact absurd h2.symm h
        · exact h2

/-- Four distinct required keys present in a list of length four force the
key list to be a permutation of the required keys. -/
theorem perm_of_sub (l m : List String) (hm : m.Nodup)
    (hsub : ∀ x ∈ m, x ∈ l) (hlen : l.length = m.length) : l.Perm m := by
  obtain ⟨l', hperm, hsl⟩ := hm.subperm fun x hx => hsub x hx
  have hll : l' = l := hsl.eq_of_length (by rw [hperm.length_eq, hlen])
  subst hll
  exact hperm

/-! ## C2: question-set validation -/

theorem checkElem_some_iff (qt : String) (opts : List (String × Json)) (c : String) :
    checkElem (some qt) (some opts) (some c) = true ↔
      (qt ≠ "" ∧ (c = "A" ∨ c = "B" ∨ c = "C" ∨ c = "D") ∧
        (opts.map Prod.fst).Perm ["A", "B", "C", "D"] ∧
        (∀ p ∈ opts, ∃ v, p.2 = Json.str v ∧ v ≠ "") ∧
        c ∈ opts.map Prod.fst) := by
  rw [checkElem]
  simp only [Bool.and_eq_true, Bool.or_eq_true, beq_iff_eq, Bool.not_eq_true',
    beq_eq_false_iff_ne, List.all_eq_true]
  constructor
  · rintro ⟨⟨⟨⟨⟨hqt, hc⟩, hlen⟩, ⟨⟨⟨hA, hB⟩, hCk⟩, hD⟩⟩, hvals⟩, hcmem⟩
    have hperm : (opts.map Prod.fst).Perm ["A", "B", "C", "D"] := by
      refine perm_of_sub _ _ (by decide) ?_ (by simpa using hlen)
      intro x hx
      simp only [List.mem_cons, List.not_mem_nil, or_false] at hx
      rcases hx with rfl | rfl | rfl | rfl
      · exact (jLookup_isSome_iff opts "A").mp hA
      · exact (jLookup_isSome_iff opts "B").mp hB
      · exact (jLookup_isSome_iff opts "C").mp hCk
      · exact (jLookup_isSome_iff opts "D").mp hD
    refine ⟨hqt, by tauto, hperm, ?_, (jLookup_isSome_iff opts c).mp hcmem⟩
    intro p hp
    have hv := hvals p hp
    rcases p with ⟨pk, pv⟩
    cases pv <;> simp [goodOptVal] at hv ⊢
    exact hv
  · rintro ⟨hqt, hc, hperm, hvals, hcmem⟩
    have hlen : opts.length = 4 := by
      have := hperm.length_eq
      simpa using this
    refine ⟨⟨⟨⟨⟨hqt, by tauto⟩, hlen⟩, ?_⟩, ?_⟩,
      (jLookup_isSome_iff opts c).mpr hcmem⟩
    · refine ⟨⟨⟨?_, ?_⟩, ?_⟩, ?_⟩ <;>
        exact (jLookup_isSome_iff opts _).mpr (hperm.mem_iff.mpr (by simp))
    · intro p hp
      obtain ⟨v, hv, hne⟩ := hvals p hp
      rw [hv, goodOptVal]
      simpa using hne

theorem isGoodElem_iff (q : Json) : isGoodElem q = true ↔ SpecGoodElem q := by
  constructor
  · intro h
    cases q with
    | obj kvs =>
      rw [isGoodElem] at h
      rcases hQ : asStr (jLookup kvs "question") with _ | qt
      · rw [hQ] at h; simp [checkElem] at h
      rcases hO : asObj (jLookup kvs "options") with _ | opts
      · rw [hQ, hO] at h; simp [checkElem] at h
      rcases hC : asStr (jLookup kvs "correct_answer") with _ | c
      · rw [hQ, hO, hC] at h; simp [checkElem] at h
      rw [hQ, hO, hC] at h
      obtain ⟨hqt, hc, hperm, hvals, hcmem⟩ := (checkElem_some_iff qt opts c).mp h
      exact ⟨kvs, qt, opts, c, rfl, asStr_eq_some.mp hQ, hqt, asObj_eq_some.mp hO,
        hperm, hvals, asStr_eq_some.mp hC, hc, hcmem⟩
    | null => exact Bool.noConfusion h
    | bool b => exact Bool.noConfusion h
    | num n => exact Bool.noConfusion h
    | str s => exact Bool.noConfusion h
    | arr l => exact Bool.noConfusion h
  · rintro ⟨kvs, qt, opts, c, rfl, hQ, hqt, hO, hperm, hvals, hC, hc, hcmem⟩
    rw [isGoodElem, asStr_eq_some.mpr hQ, asObj_eq_some.mpr hO, asStr_eq_some.mpr hC]
    exact (checkElem_some_iff qt opts c).mpr ⟨hqt, hc, hperm, hvals, hcmem⟩

theorem validateQuestionSet_eq_some_iff (j : Json) (qs : List Json) :
    validateQuestionSet j = some qs ↔
      (j = Json.arr qs ∧ qs.length = 5 ∧ ∀ q ∈ qs, SpecGoodElem q) := by
  cases j with
  | arr l =>
    rw [validateQuestionSet]
    by_cases h : (l.length == 5) && l.all isGoodElem
    · rw [if_pos h]
      simp only [Bool.and_eq_true, beq_iff_eq, List.all_eq_true] at h
      constructor
      · intro he
        injection he with he
        subst he
        exact ⟨rfl, h.1, fun q hq => (isGoodElem_iff q).mp (h.2 q hq)⟩
      · rintro ⟨he, -, -⟩
        injection he with he
        rw [he]
    · rw [if_neg h]
      simp only [Bool.and_eq_true, beq_iff_eq, List.all_eq_true] at h
      constructor
      · intro he; cases he
      · rintro ⟨he, h5, hall⟩
        injection he with he
        subst he
        exact absurd ⟨h5, fun q hq => (isGoodElem_iff q).mpr (hall q hq)⟩ h
  | null => exact ⟨fun h => Option.noConfusion h, fun h => Json.noConfusion h.1⟩
  | bool b => exact ⟨fun h => Option.noConfusion h, fun h => Json.noConfusion h.1⟩
  | num n => exact ⟨fun h => Option.noConfusion h, fun h => Json.noConfusion h.1⟩
  | str s => exact ⟨fun h => Option.noConfusion h, fun h => Json.noConfusion h.1⟩
  | obj kvs => exact ⟨fun h => Option.noConfusion h, fun h => Json.noConfusion h.1⟩

/-- C2: a question-generation attempt succeeds (returning the questions) if
and only if the output parses as a JSON list of exactly 5 elements and every
element is a dict with the three required fields, `question` a non-empty
string, `options` a dict with exactly the keys A/B/C/D all mapped to
non-empty strings, and `correct_answer` one of A/B/C/D present among the
option keys; any violation makes the attempt fail with no partial result. -/
theorem c2_question_validation (o : McOutcome) (qs : List Json) :
    mcAttempt o = some qs ↔
      (o = McOutcome.parsed (Json.arr qs) ∧ qs.length = 5 ∧
        ∀ q ∈ qs, SpecGoodElem q) := by
  cases o with
  | raise =>
    exact ⟨fun h => Option.noConfusion h, fun h => McOutcome.noConfusion h.1⟩
  | noparse raw =>
    exact ⟨fun h => Option.noConfusion h, fun h => McOutcome.noConfusion h.1⟩
  | parsed j =>
    rw [mcAttempt, validateQuestionSet_eq_some_iff]
    constructor
    · rintro ⟨rfl, h5, hall⟩
      exact ⟨rfl, h5, hall⟩
    · rintro ⟨he, h5, hall⟩
      exact ⟨McOutcome.parsed.inj he, h5, hall⟩

theorem validateQuestionSet_accepts_example :
    validateQuestionSet (Json.arr (List.replicate 5 exQuestion)) =
      some (List.replicate 5 exQuestion) := rfl

theorem validateQuestionSet_rejects_example :
    validateQuestionSet
      (Json.arr [exQuestion, exQuestion, exQuestion, badQuestion, exQuestion]) =
      none := rfl

/-! ## C3: passage validation -/

/-- C3 counterexample: at level 3 the configured minimum is 80 words, so the
claim requires rejection of any text under 64 words; yet the code accepts
`c3text`, which has only 4 words but more than 40 characters.  Passage
validation does not check word counts at all. -/
theorem c3_passage_validation_cex :
    validPassageText c3text = true ∧
    wordCount c3text = 4 ∧
    MIN_LEVEL ≤ (3 : ℤ) ∧ (3 : ℤ) ≤ MAX_LEVEL ∧
    10 * wordCount c3text < 8 * levelWordsMin 3 := by
  refine ⟨by decide, by decide, by decide, by decide, by decide⟩

/-- C3 (amended): for every level, passage validation accepts a generated
response if and only if the stripped text has more than 40 characters and
contains neither refusal phrase; it rejects empty text and transport errors,
and performs no word-count or level-dependent check (the check takes no
level input). -/
theorem c3_passage_validation_amended (t : String) :
    ((passageAttempt (GenOutcome.response true t)).isSome = true ↔
      (40 < (stripL t.data).length ∧
        hasSub (toLowerL (stripL t.data)) refusal1 = false ∧
        hasSub (toLowerL (stripL t.data)) refusal2 = false)) ∧
    passageAttempt (GenOutcome.response true "") = none ∧
    passageAttempt GenOutcome.raise = none := by
  refine ⟨?_, by decide, rfl⟩
  rw [passageAttempt, if_pos rfl]
  by_cases h : validPassageText t
  · rw [if_pos h]
    simp only [Option.isSome_some, true_iff]
    rw [validPassageText] at h
    simp only [Bool.and_eq_true, decide_eq_true_eq, Bool.not_eq_true'] at h
    exact ⟨h.1.1, h.1.2, h.2⟩
  · rw [if_neg h]
    simp only [Option.isSome_none, Bool.false_eq_true, false_iff]
    intro hc
    apply h
    rw [validPassageText]
    simp only [Bool.and_eq_true, decide_eq_true_eq, Bool.not_eq_true']
    exact ⟨⟨hc.1, hc.2.1⟩, hc.2.2⟩

/-! ## C4: bounded retries -/

theorem runRetries_spec {ω α : Type} (check : ω → Option α) (oracle : ℕ → ω) :
    (runRetries check oracle).2.1 ≤ MAX_RETRIES ∧
    (runRetries check oracle).2.2 =
      (List.range ((runRetries check oracle).2.1 - 1)).map backoff ∧
    ((∀ a < MAX_RETRIES, check (oracle a) = none) →
      (runRetries check oracle).1 = none) := by
  rcases h0 : check (oracle 0) with _ | a0
  · rcases h1 : check (oracle 1) with _ | a1
    · rcases h2 : check (oracle 2) with _ | a2
      · refine ⟨?_, ?_, fun _ => ?_⟩ <;>
          simp [runRetries, h0, h1, h2, MAX_RETRIES, List.range_succ]
      · refine ⟨?_, ?_, fun hf => ?_⟩
        · simp [runRetries, h0, h1, h2, MAX_RETRIES]
        · simp [runRetries, h0, h1, h2, List.range_succ]
        · have := hf 2 (by norm_num [MAX_RETRIES])
          rw [h2] at this
          exact Option.noConfusion this
    · refine ⟨?_, ?_, fun hf => ?_⟩
      · simp [runRetries, h0, h1, MAX_RETRIES]
      · simp [runRetries, h0, h1, List.range_succ]
      · have := hf 1 (by norm_num [MAX_RETRIES])
        rw [h1] at this
        exact Option.noConfusion this
  · refine ⟨?_, ?_, fun hf => ?_⟩
    · simp [runRetries, h0, MAX_RETRIES]
    · simp [runRetries, h0]
    · have := hf 0 (by norm_num [MAX_RETRIES])
      rw [h0] at this
      exact Option.noConfusion this

/-- C4: both generation operations make at most `MAX_RETRIES` calls to the
generation capability, sleep `1.5 ** attempt` seconds between attempts, and
when every attempt fails (validation failure or raised transport error)
they return the terminal failure value `none` instead of raising (both are
total functions into `Option`). -/
theorem c4_retry_bounded (oT : ℕ → GenOutcome) (oQ : ℕ → McOutcome) :
    ((generate_reading_text oT).2.1 ≤ MAX_RETRIES ∧
     (generate_reading_text oT).2.2 =
       (List.range ((generate_reading_text oT).2.1 - 1)).map backoff ∧
     ((∀ a < MAX_RETRIES, passageAttempt (oT a) = none) →
       (generate_reading_text oT).1 = none)) ∧
    ((generate_mc_questions oQ).2.1 ≤ MAX_RETRIES ∧
     (generate_mc_questions oQ).2.2 =
       (List.range ((generate_mc_questions oQ).2.1 - 1)).map backoff ∧
     ((∀ a < MAX_RETRIES, mcAttempt (oQ a) = none) →
       (generate_mc_questions oQ).1 = none)) :=
  ⟨runRetries_spec passageAttempt oT, runRetries_spec mcAttempt oQ⟩

/-- Witness for `c4_retry_bounded`: with a transport error on every attempt,
both operations return the terminal failure value. -/
theorem c4_retry_bounded_witness :
    (generate_reading_text (fun _ => GenOutcome.raise)).1 = none ∧
    (generate_mc_questions (fun _ => McOutcome.raise)).1 = none :=
  ⟨(c4_retry_bounded (fun _ => GenOutcome.raise) (fun _ => McOutcome.raise)).1.2.2
      (fun _ _ => rfl),
   (c4_retry_bounded (fun _ => GenOutcome.raise) (fun _ => McOutcome.raise)).2.2.2
      (fun _ _ => rfl)⟩

/-! ## C5: grading -/

theorem gradeAux_countP (ua : List (ℕ × Option String)) (qs : List Json) :
    ∀ n, gradeAux ua n qs =
      (List.range qs.length).countP
        (fun i => isCorrect ua (n + i) (qs.getD i Json.null)) := by
  induction qs with
  | nil => intro n; simp [gradeAux]
  | cons q rest ih =>
    intro n
    rw [gradeAux, ih (n + 1), List.length_cons, List.range_succ_eq_map,
      List.countP_cons, List.countP_map]
    have harg : ((fun i => isCorrect ua (n + i) ((q :: rest).getD i Json.null)) ∘ Nat.succ)
        = (fun i => isCorrect ua (n + 1 + i) (rest.getD i Json.null)) := by
      funext i
      simp only [Function.comp_apply, List.getD_cons_succ]
      congr 1
      omega
    rw [harg]
    simp only [List.getD_cons_zero, Nat.add_zero]
    omega

/-- C5: for every fixed pair of answers and a 5-question set, grading
computes the score as the count of indices `i` in `0..4` where the stored
answer equals question `i`'s correct-answer key (no partial credit), and
the computation depends only on the answers at those indices, so re-grading
the identical pair always yields the same score. -/
theorem c5_grading (ua : List (ℕ × Option String)) (qs : List Json)
    (h5 : qs.length = 5) :
    grade ua qs =
      (List.range 5).countP (fun i => isCorrect ua i (qs.getD i Json.null)) ∧
    (∀ i q, isCorrect ua i q = true ↔
      ∃ c, correctKey q = some c ∧ ansGet ua i = some c) ∧
    (∀ ua', (∀ i < 5, ansGet ua' i = ansGet ua i) → grade ua' qs = grade ua qs) := by
  refine ⟨?_, ?_, ?_⟩
  · rw [grade, gradeAux_countP ua qs 0, h5]
    exact List.countP_congr (fun i _ => by rw [Nat.zero_add])
  · intro i q
    rcases hk : correctKey q with _ | c
    · rw [isCorrect, hk]
      simp
    · rw [isCorrect, hk]
      simp only [beq_iff_eq, Option.some.injEq]
      constructor
      · intro h
        exact ⟨c, rfl, h⟩
      · rintro ⟨c', hc', h⟩
        rw [hc']
        exact h
  · intro ua' hpt
    rw [grade, grade, gradeAux_countP ua qs 0, gradeAux_countP ua' qs 0, h5]
    refine List.countP_congr (fun i hi => ?_)
    have hi5 : i < 5 := List.mem_range.mp hi
    rw [isCorrect, isCorrect, Nat.zero_add, hpt i hi5]

/-- Witness for `c5_grading`: a concrete all-correct round scores 5. -/
theorem c5_grading_witness :
    grade [(0, some "A"), (1, some "A"), (2, some "A"), (3, some "A"), (4, some "A")]
      (List.replicate 5 exQuestion) =
      (List.range 5).countP (fun i => isCorrect
        [(0, some "A"), (1, some "A"), (2, some "A"), (3, some "A"), (4, some "A")]
        i ((List.replicate 5 exQuestion).getD i Json.null)) :=
  (c5_grading _ _ (by rfl)).1

/-! ## Store lemmas -/

theorem jLookup_objSet_ne (kvs : List (String × Json)) (k : String) (v : Json)
    (k' : String) (h : k ≠ k') : jLookup (objSet kvs k v) k' = jLookup kvs k' := by
  induction kvs with
  | nil => simp [objSet, jLookup, h]
  | cons p rest ih =>
    obtain ⟨k0, v0⟩ := p
    rw [objSet]
    by_cases h0 : k0 = k
    · subst h0
      rw [if_pos rfl, jLookup, if_neg h, jLookup, if_neg h]
    · rw [if_neg h0, jLookup, jLookup]
      by_cases h1 : k0 = k'
      · rw [if_pos h1, if_pos h1]
      · rw [if_neg h1, if_neg h1, ih]

theorem jLookup_objSet_self (kvs : List (String × Json)) (k : String) (v : Json) :
    jLookup (objSet kvs k v) k = some v := by
  induction kvs with
  | nil => simp [objSet, jLookup]
  | cons p rest ih =>
    obtain ⟨k0, v0⟩ := p
    rw [objSet]
    by_cases h0 : k0 = k
    · rw [if_pos h0, jLookup, if_pos rfl]
    · rw [if_neg h0, jLookup, if_neg h0, ih]

theorem jLookup_setLevelList_ne (kvs : List (String × Json)) (u : String)
    (lvl : ℤ) (u' : String) (h : u' ≠ u) :
    jLookup (setLevelList kvs u lvl) u' = jLookup kvs u' := by
  induction kvs with
  | nil => rfl
  | cons p rest ih =>
    obtain ⟨k, rec⟩ := p
    rw [setLevelList]
    by_cases hk : k = u
    · subst hk
      rw [if_pos rfl, jLookup, if_neg (fun hh => h hh.symm), jLookup,
        if_neg (fun hh => h hh.symm)]
    · rw [if_neg hk, jLookup, jLookup]
      by_cases h1 : k = u'
      · rw [if_pos h1, if_pos h1]
      · rw [if_neg h1, if_neg h1, ih]

theorem jLookup_setLevelList_eq (kvs : List (String × Json)) (u : String)
    (lvl : ℤ) :
    jLookup (setLevelList kvs u lvl) u =
      (jLookup kvs u).map (fun r => setField r "level" (Json.num lvl)) := by
  induction kvs with
  | nil => rfl
  | cons p rest ih =>
    obtain ⟨k, rec⟩ := p
    rw [setLevelList]
    by_cases hk : k = u
    · subst hk
      rw [if_pos rfl, jLookup, if_pos rfl, jLookup, if_pos rfl, Option.map_some']
    · rw [if_neg hk, jLookup, if_neg hk, jLookup, if_neg hk, ih]

theorem recHistoryLen_setField_level (rec : Json) (v : Json) :
    recHistoryLen (setField rec "level" v) = recHistoryLen rec := by
  cases rec with
  | obj rkvs =>
    rw [setField, recHistoryLen, recHistoryLen,
      jLookup_objSet_ne rkvs "level" v "history" (by decide)]
  | null => rfl
  | bool b => rfl
  | num n => rfl
  | str s => rfl
  | arr l => rfl

theorem historyLen_setLevel (store : Json) (u : String) (lvl : ℤ) (u' : String) :
    historyLen (setLevel store u lvl) u' = historyLen store u' := by
  cases store with
  | obj kvs =>
    rw [setLevel, historyLen, historyLen, getUserRec, getUserRec]
    by_cases hu : u' = u
    · subst hu
      rw [jLookup_setLevelList_eq]
      cases hrec : jLookup kvs u' with
      | none => rfl
      | some rec => exact recHistoryLen_setField_level rec (Json.num lvl)
    · rw [jLookup_setLevelList_ne kvs u lvl u' hu]
  | null => rfl
  | bool b => rfl
  | num n => rfl
  | str s => rfl
  | arr l => rfl

theorem getUserLevel_setLevel (store : Json) (u : String) (lvl : ℤ)
    (rkvs : List (String × Json)) (h : getUserRec store u = some (Json.obj rkvs)) :
    getUserLevel (setLevel store u lvl) u = some (Json.num lvl) := by
  cases store with
  | obj kvs =>
    rw [getUserRec] at h
    rw [setLevel, getUserLevel, getUserRec, jLookup_setLevelList_eq, h,
      Option.map_some', setField]
    exact jLookup_objSet_self rkvs "level" (Json.num lvl)
  | null => exact Option.noConfusion h
  | bool b => exact Option.noConfusion h
  | num n => exact Option.noConfusion h
  | str s => exact Option.noConfusion h
  | arr l => exact Option.noConfusion h

/-! ## C7: submission requires all answers -/

theorem all_isSome_iff (temp : List (Option String)) (hlen : temp.length = 5) :
    (temp.all (fun a => a.isSome) = true) ↔
      (∀ i < 5, (temp.getD i none).isSome = true) := by
  rw [List.all_eq_true]
  constructor
  · intro h i hi
    have hilen : i < temp.length := by omega
    rw [List.getD_eq_getElem temp none hilen]
    exact h _ (List.getElem_mem hilen)
  · intro h a ha
    obtain ⟨i, hilen, rfl⟩ := List.mem_iff_getElem.mp ha
    have := h i (by omega)
    rwa [List.getD_eq_getElem temp none hilen] at this

/-- C7: with the round not yet submitted, submission is accepted only when
every question index `0..4` has a non-null collected answer; with any
missing answer the whole session state is unchanged (the round stays
un-submitted and no score is computed), and on acceptance the answers are
stored, the submitted flag set, and score and level untouched. -/
theorem c7_submit_requires_all (s : Sess) (temp : List (Option String))
    (hns : s.submitted_answers = false) (hlen : temp.length = 5) :
    ((∃ i < 5, temp.getD i none = none) → submitStep s temp = s) ∧
    ((∀ i < 5, (temp.getD i none).isSome = true) →
      (submitStep s temp).submitted_answers = true ∧
      (submitStep s temp).user_answers = temp.enum ∧
      (submitStep s temp).score = s.score ∧
      (submitStep s temp).current_level = s.current_level) := by
  constructor
  · rintro ⟨i, hi, hnone⟩
    rw [submitStep, if_neg (by rw [hns]; exact Bool.false_ne_true)]
    by_cases hall : (temp.all fun a => a.isSome) = true
    · have := (all_isSome_iff temp hlen).mp hall i hi
      rw [hnone] at this
      exact absurd this (by simp)
    · rw [if_neg hall]
  · intro h
    rw [submitStep, if_neg (by rw [hns]; exact Bool.false_ne_true),
      if_pos ((all_isSome_iff temp hlen).mpr h)]
    obtain ⟨un, adm, lvl, ctext, cqs, ua, sub, sc, fb⟩ := s
    exact ⟨rfl, rfl, rfl, rfl⟩

/-- Witness for `c7_submit_requires_all`: a submission with answer 2 missing
leaves the state unchanged. -/
theorem c7_submit_requires_all_witness :
    submitStep c7sess [some "A", some "B", none, some "D", some "A"] = c7sess :=
  (c7_submit_requires_all c7sess [some "A", some "B", none, some "D", some "A"]
      rfl rfl).1 ⟨2, by norm_num, rfl⟩

/-! ## C9: the next transition -/

/-- C9 counterexample: the next-text handler does not clear the score (the
code comments that generation resets it later); after `nextStep` on a round
with score 4 the score is still 4, not 0 as the claim requires. -/
theorem c9_next_cex :
    (nextStep c9sess).score = 4 ∧ ¬((nextStep c9sess).score = 0) :=
  ⟨rfl, by decide⟩

/-- C9 (amended): the next transition clears the passage, the question set,
the answers and the submitted flag, while leaving `current_level`, `score`
and `feedback_given` unchanged (score is reset only when the next round's
content is generated, app.py line 583). -/
theorem c9_next_clears (s : Sess) :
    (nextStep s).current_text = none ∧
    (nextStep s).current_questions = none ∧
    (nextStep s).user_answers = [] ∧
    (nextStep s).submitted_answers = false ∧
    (nextStep s).current_level = s.current_level ∧
    (nextStep s).score = s.score ∧
    (nextStep s).feedback_given = s.feedback_given := by
  obtain ⟨un, adm, lvl, ctext, cqs, ua, sub, sc, fb⟩ := s
  exact ⟨rfl, rfl, rfl, rfl, rfl, rfl, rfl⟩

/-! ## C6 and C10: grading side effects and store writes -/

/-- The grading render never changes any user's history count: its only
store effect is the conditional level write. -/
theorem historyLen_resultsRender (s : Sess) (store : Json) (u : String) :
    historyLen (resultsRender s store).2.1 u = historyLen store u := by
  obtain ⟨un, adm, lvl, ctext, cqs, ua, sub, sc0, fb⟩ := s
  cases sub with
  | false => simp [resultsRender]
  | true =>
    cases fb with
    | true => simp [resultsRender]
    | false =>
      by_cases hchg : adaptLevel lvl (grade ua (cqs.getD [])) (cqs.getD []).length = lvl
      · simp [resultsRender, hchg]
      · by_cases hu : hasUser store un = true
        · simp [resultsRender, hchg, hu, historyLen_setLevel]
        · simp [resultsRender, hchg, hu]

/-- C6 counterexample: grading a round appends no history entry anywhere —
the store after grading carries as many history entries as before (zero),
not one more as the claim requires; the code never writes a
`{timestamp, level_before, level_after, score, passage_snippet}` record. -/
theorem c6_history_cex :
    historyLen (resultsRender c6sess c6store).2.1 "ana@x.com" = 0 ∧
    historyLen c6store "ana@x.com" = 0 ∧
    ¬(historyLen (resultsRender c6sess c6store).2.1 "ana@x.com" =
        historyLen c6store "ana@x.com" + 1) := by
  have h0 : historyLen c6store "ana@x.com" = 0 := by decide
  have h1 := historyLen_resultsRender c6sess c6store "ana@x.com"
  refine ⟨by rw [h1, h0], h0, fun h => ?_⟩
  rw [h1, h0] at h
  exact absurd h (by decide)

/-- C6 (amended): for every answered, not-yet-graded round, the grading
render performs the level adaptation, sets the `feedback_given` guard, and
re-running the render is a no-op (same state, same store, no further store
writes) — the side effects happen exactly once per round; and no history
entry is appended: the history count of every user is unchanged. -/
theorem c6_grading_effects_once (s : Sess) (store : Json) (qs : List Json)
    (hsub : s.submitted_answers = true) (hfb : s.feedback_given = false)
    (hq : s.current_questions = some qs) :
    (resultsRender s store).1.feedback_given = true ∧
    (resultsRender s store).1.current_level =
      adaptLevel s.current_level (grade s.user_answers qs) qs.length ∧
    resultsRender (resultsRender s store).1 (resultsRender s store).2.1 =
      ((resultsRender s store).1, (resultsRender s store).2.1, []) ∧
    (∀ u, historyLen (resultsRender s store).2.1 u = historyLen store u) := by
  obtain ⟨un, adm, lvl, ctext, cqs, ua, sub, sc0, fb⟩ := s
  simp only at hsub hfb hq
  subst hsub hfb hq
  by_cases hchg : adaptLevel lvl (grade ua qs) qs.length = lvl
  · refine ⟨?_, ?_, ?_, fun u => ?_⟩ <;>
      simp [resultsRender, hchg]
  · by_cases hu : hasUser store un = true
    · refine ⟨?_, ?_, ?_, fun u => ?_⟩ <;>
        simp [resultsRender, hchg, hu, historyLen_setLevel]
    · refine ⟨?_, ?_, ?_, fun u => ?_⟩ <;>
        simp [resultsRender, hchg, hu]

/-- Witness for `c6_grading_effects_once`: the concrete graded round sets
the guard and leaves every user's history count unchanged. -/
theorem c6_grading_effects_once_witness :
    (resultsRender c6sess c6store).1.feedback_given = true ∧
    (∀ u, historyLen (resultsRender c6sess c6store).2.1 u = historyLen c6store u) :=
  have h := c6_grading_effects_once c6sess c6store (List.replicate 5 exQuestion)
    rfl rfl rfl
  ⟨h.1, h.2.2.2⟩

/-- C10: at the grading step, with the user present in the store, a store
write happens if and only if the adapted level differs from the current
level (score held or clamped at a bound means no write, so the stored level
can stay behind the in-memory one), and the logout handler writes the
in-memory current level for a student unconditionally, reconciling the
store. -/
theorem c10_store_write_iff (s : Sess) (store : Json) (qs : List Json)
    (hsub : s.submitted_answers = true) (hfb : s.feedback_given = false)
    (hq : s.current_questions = some qs)
    (hu : hasUser store s.username = true) :
    ((resultsRender s store).2.2 = [] ↔
      adaptLevel s.current_level (grade s.user_answers qs) qs.length =
        s.current_level) ∧
    ((resultsRender s store).2.2 = [] → (resultsRender s store).2.1 = store) ∧
    (s.is_admin = false → s.username ≠ "" →
      ∀ rkvs, getUserRec store s.username = some (Json.obj rkvs) →
        getUserLevel (logoutSave s store).1 s.username =
          some (Json.num s.current_level)) := by
  obtain ⟨un, adm, lvl, ctext, cqs, ua, sub, sc0, fb⟩ := s
  simp only at hsub hfb hq hu
  subst hsub hfb hq
  refine ⟨?_, ?_, ?_⟩
  · by_cases hchg : adaptLevel lvl (grade ua qs) qs.length = lvl
    · simp [resultsRender, hchg]
    · simp [resultsRender, hchg, hu]
  · by_cases hchg : adaptLevel lvl (grade ua qs) qs.length = lvl
    · simp [resultsRender, hchg]
    · simp [resultsRender, hchg, hu]
  · intro hadm hne rkvs hrec
    simp only at hadm hne hrec ⊢
    rw [logoutSave, if_pos ⟨hadm, hne⟩]
    simp only
    rw [if_pos hu]
    exact getUserLevel_setLevel store un lvl rkvs hrec

/-- Witness for `c10_store_write_iff`: on the concrete store, logout writes
the in-memory level 5 back for the student. -/
theorem c10_store_write_iff_witness :
    getUserLevel (logoutSave c6sess c6store).1 c6sess.username =
      some (Json.num c6sess.current_level) :=
  (c10_store_write_iff c6sess c6store (List.replicate 5 exQuestion)
      rfl rfl rfl rfl).2.2 rfl (by decide) _ rfl

/-! ## C8: level bounds invariant and monotonicity -/

/-- C8: for a level within bounds and a score out of 5, the adapted level
stays within `[MIN_LEVEL, MAX_LEVEL]`; the adapter is monotone in the
expected direction (score 5 never lowers, score 0 never raises, score 3
holds); the initial assignment `DEFAULT_LEVEL` is within bounds; and the
login load returns `DEFAULT_LEVEL` when no level is stored and the stored
level itself when present, so an in-bounds stored level loads in bounds. -/
theorem c8_level_invariant (lvl : ℤ) (score : ℕ) (rec : List (String × Json))
    (h1 : MIN_LEVEL ≤ lvl) (h2 : lvl ≤ MAX_LEVEL) (h5 : score ≤ 5) :
    (MIN_LEVEL ≤ adaptLevel lvl score 5 ∧ adaptLevel lvl score 5 ≤ MAX_LEVEL) ∧
    (score = 5 → lvl ≤ adaptLevel lvl score 5) ∧
    (score = 0 → adaptLevel lvl score 5 ≤ lvl) ∧
    (score = 3 → adaptLevel lvl score 5 = lvl) ∧
    (MIN_LEVEL ≤ DEFAULT_LEVEL ∧ DEFAULT_LEVEL ≤ MAX_LEVEL) ∧
    (jLookup rec "level" = none → loginLevel rec = Json.num DEFAULT_LEVEL) ∧
    (∀ v : ℤ, jLookup rec "level" = some (Json.num v) →
      MIN_LEVEL ≤ v → v ≤ MAX_LEVEL →
      loginLevel rec = Json.num v ∧ MIN_LEVEL ≤ v ∧ v ≤ MAX_LEVEL) := by
  refine ⟨?_, ?_, ?_, ?_, by decide, ?_, ?_⟩
  · rw [adaptLevel]
    split_ifs <;> omega
  · intro hs
    subst hs
    rw [adaptLevel, if_pos ((percent_hi_iff 5 (by norm_num)).mpr (by norm_num))]
    split_ifs <;> omega
  · intro hs
    subst hs
    have hhi : ¬ (80 ≤ score_percentage 0 5) := by
      intro hc
      have := (percent_hi_iff 0 (by norm_num)).mp hc
      omega
    rw [adaptLevel, if_neg hhi,
      if_pos ((percent_lo_iff 0 (by norm_num)).mpr (by norm_num))]
    split_ifs <;> omega
  · intro hs
    subst hs
    have hhi : ¬ (80 ≤ score_percentage 3 5) := by
      intro hc
      have := (percent_hi_iff 3 (by norm_num)).mp hc
      omega
    have hlo : ¬ (score_percentage 3 5 ≤ 40) := by
      intro hc
      have := (percent_lo_iff 3 (by norm_num)).mp hc
      omega
    rw [adaptLevel, if_neg hhi, if_neg hlo]
  · intro h
    rw [loginLevel, h]
  · intro v h hmin hmax
    rw [loginLevel, h]
    exact ⟨rfl, hmin, hmax⟩

/-- Witness for `c8_level_invariant`: at the bottom bound with score 0 the
level stays 1 and within bounds. -/
theorem c8_level_invariant_witness :
    (MIN_LEVEL ≤ adaptLevel 1 0 5 ∧ adaptLevel 1 0 5 ≤ MAX_LEVEL) ∧
      adaptLevel 1 0 5 ≤ 1 :=
  have h := c8_level_invariant 1 0 [] (by decide) (by decide) (by norm_num)
  ⟨h.1, h.2.2.1 rfl⟩

end Compren
